import Mathlib

/-!
Verification of the go-clickhouse wire-protocol engine (`src/ch/proto.go`)
and the migration runner (`src/unnamed/part_000`, package `chmigrate`).

The wire protocol is shallowly embedded: the `chproto.Reader` is modelled as
a list of typed tokens `Tok`, one token per primitive read performed by the
Go code (`Uvarint`, `String`, `Bool`, `Int32`, and one opaque token for the
external per-column codec `col.ReadFrom`).  A transport failure is a
`Tok.ioErr` token at the reading position.  Compression framing
(`WithCompression`) is transparent to the logical reader in the source and
is therefore the identity in this model.  Go functions returning
`(T, error)` become functions returning `Option T × Option Err` together
with the remaining token stream.
-/

namespace GoCH

/-- One primitive read unit of the wire stream, as consumed by
`chproto.Reader`.  `colData` stands for the body of one column as consumed
by the external per-type column codec (`col.ReadFrom` in `readBlock`);
`ioErr` marks a transport failure surfacing at that read. -/
inductive Tok where
  | uvarint (n : Nat)
  | str (s : String)
  | int32 (v : Int)
  | boolean (b : Bool)
  | colData
  | ioErr (msg : String)
deriving DecidableEq, Repr

/-- Go `error` values produced by the protocol engine.  `exc` is the
`ch.Error` structure decoded by `readException`: code, name, message,
stack trace and the optional nested cause (which in Go is a plain `error`,
so it may itself be a transport error). -/
inductive Err where
  | io (msg : String)
  | unexpected (fn : String) (opcode : Nat)
  | emptyColName
  | emptyColType (col : String)
  | exc (code : Int) (name : String) (message : String)
        (stackTrace : String) (nested : Option Err)
deriving Repr

/-- The Go error text of the errors this development reasons about.
(the `Error()` method of `ch.Error` lives outside the excerpt; for it we
expose the decoded message field.) -/
def errMsg : Err → String
  | .io m => m
  | .unexpected fn op => "ch: " ++ fn ++ ": unexpected packet: " ++ toString op
  | .emptyColName => "ch: column has empty name"
  | .emptyColType c => "ch: column=" ++ c ++ " has empty type"
  | .exc _ _ m _ _ => m

/-- The transport error a failing primitive read yields: the `ioErr`
message of the token, or a generic end-of-stream / desynchronization error.
Error localization inside multi-field readers whose values are discarded
is collapsed to the head of the stream; no theorem below depends on it. -/
def tokErr : List Tok → Err
  | Tok.ioErr m :: _ => Err.io m
  | [] => Err.io "EOF"
  | _ => Err.io "unexpected token"

/-- Model of Go `strings.TrimPrefix`: removes exactly one leading
occurrence of `pre` from `s`, or returns `s` unchanged. -/
def trimPrefix (s pre : String) : String :=
  if pre.toList.isPrefixOf s.toList then String.mk (s.toList.drop pre.toList.length) else s

/-- Model of Go `strings.TrimSpace`: strips leading and trailing
whitespace characters. -/
def trimSpace (s : String) : String :=
  String.mk (((s.toList.dropWhile Char.isWhitespace).reverse.dropWhile Char.isWhitespace).reverse)

/-- `readException` (proto.go:144-173).  Reads code (Int32), name, message
and stack trace (String), then the has-nested Bool; when the flag is set it
recursively decodes the cause and stores it (a Go `error`, hence possibly a
transport error) in the `nested` field.  The decoded message has the
redundant `name ++ ":"` prefix trimmed, then surrounding whitespace
trimmed.  Returns the produced error together with the rest of the
stream. -/
def readException : List Tok → Err × List Tok
  | Tok.int32 code :: rd1 =>
    match rd1 with
    | Tok.str name :: rd2 =>
      match rd2 with
      | Tok.str message :: rd3 =>
        match rd3 with
        | Tok.str stackTrace :: rd4 =>
          match rd4 with
          | Tok.boolean hasNested :: rd5 =>
            if hasNested then
              let p := readException rd5
              (Err.exc code name (trimSpace (trimPrefix message (name ++ ":")))
                stackTrace (some p.1), p.2)
            else
              (Err.exc code name (trimSpace (trimPrefix message (name ++ ":")))
                stackTrace none, rd5)
          | rd4x => (tokErr rd4x, rd4x)
        | rd3x => (tokErr rd3x, rd3x)
      | rd2x => (tokErr rd2x, rd2x)
    | rd1x => (tokErr rd1x, rd1x)
  | rdx => (tokErr rdx, rdx)

example :
    readException [Tok.int32 60, Tok.str "DB::Exception",
      Tok.str "DB::Exception: Table default.t does not exist.", Tok.str "", Tok.boolean false]
    = (Err.exc 60 "DB::Exception" "Table default.t does not exist." "" none, []) := by
  rfl

example :
    readException [Tok.int32 1, Tok.str "E", Tok.str "E:E:x", Tok.str "", Tok.boolean false]
    = (Err.exc 1 "E" "E:x" "" none, []) := by rfl

/-! ## Packet opcodes

Modelled from the spec: the opcode vocabulary of §6 lives in the external
`chproto` package (not part of the excerpt); the numeric values follow the
ClickHouse native protocol the spec describes.  The development only relies
on the server opcodes being pairwise distinct. -/

def clientHello : Nat := 0
def clientQuery : Nat := 1
def clientData : Nat := 2
def clientCancel : Nat := 3
def clientPing : Nat := 4

def serverHello : Nat := 0
def serverData : Nat := 1
def serverException : Nat := 2
def serverProgress : Nat := 3
def serverPong : Nat := 4
def serverEndOfStream : Nat := 5
def serverProfileInfo : Nat := 6
def serverTableColumns : Nat := 11

/-! ## Block decode -/

/-- The external `chschema.Block`, modelled from the spec (§3): row count,
column count, and the ordered columns, each a name / type-tag pair (the
per-type decoded storage is opaque).  `proto.go` assigns `NumColumn` and
`NumRow` directly and appends columns via `block.Column`. -/
structure Block where
  NumColumn : Nat := 0
  NumRow : Nat := 0
  columns : List (String × String) := []
deriving Repr, DecidableEq

/-- Aggregate result of a non-streaming operation (`result` in the
source): the accumulated affected-row counter. -/
structure Result where
  affected : Nat := 0
deriving Repr, DecidableEq

/-- `readBlockInfo` (proto.go:464-484): five reads — Uvarint, Bool,
Uvarint, Int32, Uvarint — all values discarded. -/
def readBlockInfo : List Tok → Option Err × List Tok
  | Tok.uvarint _ :: Tok.boolean _ :: Tok.uvarint _ :: Tok.int32 _ :: Tok.uvarint _ :: rest =>
    (none, rest)
  | rd => (some (tokErr rd), rd)

/-- The per-column loop of `readBlock` (proto.go:437-458): for each of the
`numColumn` positions reads the column name (failing on an empty name),
the column type (failing, with the column name, on an empty type), then
hands the stream to the external per-type codec, modelled as consuming one
opaque `colData` token.  Decoded columns are appended to the block in wire
order. -/
def readColumns : Nat → Nat → Block → List Tok → Block × Option Err × List Tok
  | 0, _, block, rd => (block, none, rd)
  | n + 1, numRow, block, rd =>
    match rd with
    | Tok.str colName :: rd1 =>
      if colName = "" then (block, some Err.emptyColName, rd1)
      else
        match rd1 with
        | Tok.str colType :: rd2 =>
          if colType = "" then (block, some (Err.emptyColType colName), rd2)
          else
            match rd2 with
            | Tok.colData :: rd3 =>
              readColumns n numRow
                { block with columns := block.columns ++ [(colName, colType)] } rd3
            | rd2x => (block, some (tokErr rd2x), rd2x)
        | rd1x => (block, some (tokErr rd1x), rd1x)
    | rdx => (block, some (tokErr rdx), rdx)

/-- `readBlock` (proto.go:415-462): reads the table name (discarded), then
inside the (transparent) compression frame reads the block info, the
column count and the row count, stores them on the target block, and runs
the per-column loop. -/
def readBlock (rd : List Tok) (block : Block) : Block × Option Err × List Tok :=
  match rd with
  | Tok.str _ :: rd1 =>
    match readBlockInfo rd1 with
    | (some e, rd2) => (block, some e, rd2)
    | (none, rd2) =>
      match rd2 with
      | Tok.uvarint numColumn :: rd3 =>
        match rd3 with
        | Tok.uvarint numRow :: rd4 =>
          readColumns numColumn numRow
            { block with NumColumn := numColumn, NumRow := numRow } rd4
        | rd3x => (block, some (tokErr rd3x), rd3x)
      | rd2x => (block, some (tokErr rd2x), rd2x)
  | rdx => (block, some (tokErr rdx), rdx)

/-- `readProgress` (proto.go:197-214): five Uvarint reads, values
discarded. -/
def readProgress : List Tok → Option Err × List Tok
  | Tok.uvarint _ :: Tok.uvarint _ :: Tok.uvarint _ :: Tok.uvarint _ :: Tok.uvarint _ :: rest =>
    (none, rest)
  | rd => (some (tokErr rd), rd)

/-- `readProfileInfo` (proto.go:175-195): Uvarint ×3, Bool, Uvarint, Bool,
values discarded. -/
def readProfileInfo : List Tok → Option Err × List Tok
  | Tok.uvarint _ :: Tok.uvarint _ :: Tok.uvarint _ :: Tok.boolean _ :: Tok.uvarint _
      :: Tok.boolean _ :: rest => (none, rest)
  | rd => (some (tokErr rd), rd)

/-- `readServerTableColumns` (proto.go:490-500): two String reads, values
discarded. -/
def readServerTableColumns : List Tok → Option Err × List Tok
  | Tok.str _ :: Tok.str _ :: rest => (none, rest)
  | rd => (some (tokErr rd), rd)

/-! ## Packet-dispatch loops

Each Go `for` loop is embedded as a recursive function with a fuel
parameter; the wrapper passes the token count as fuel, which always
suffices because every iteration consumes at least the opcode token.  The
fuel-exhausted branch is unreachable on any stream the theorems below
quantify over. -/

/-- The loop body of `readDataBlocks` (proto.go:342-381), carrying the
running `res` accumulator and the scratch block reused across Data
packets.  Data: decode into the scratch block and add its row count to the
accumulator (allocating it on first use); Progress / ProfileInfo /
TableColumns: skip; Exception: return the decoded exception with a nil
result; EndOfStream: return the accumulated result; any other opcode:
unexpected-packet error with a nil result. -/
def goDataBlocks : Nat → Option Result → Block → List Tok →
    Option Result × Option Err × List Tok
  | 0, _, _, rd => (none, some (Err.io "no fuel"), rd)
  | fuel + 1, res, block, rd =>
    match rd with
    | Tok.uvarint packet :: rd1 =>
      if packet = serverData then
        match readBlock rd1 block with
        | (block', none, rd2) =>
          let res' := some { affected := (res.getD {}).affected + block'.NumRow }
          goDataBlocks fuel res' block' rd2
        | (_, some e, rd2) => (none, some e, rd2)
      else if packet = serverException then
        let p := readException rd1
        (none, some p.1, p.2)
      else if packet = serverProgress then
        match readProgress rd1 with
        | (none, rd2) => goDataBlocks fuel res block rd2
        | (some e, rd2) => (none, some e, rd2)
      else if packet = serverProfileInfo then
        match readProfileInfo rd1 with
        | (none, rd2) => goDataBlocks fuel res block rd2
        | (some e, rd2) => (none, some e, rd2)
      else if packet = serverTableColumns then
        match readServerTableColumns rd1 with
        | (none, rd2) => goDataBlocks fuel res block rd2
        | (some e, rd2) => (none, some e, rd2)
      else if packet = serverEndOfStream then
        (res, none, rd1)
      else
        (none, some (Err.unexpected "readDataBlocks" packet), rd1)
    | rdx => (none, some (tokErr rdx), rdx)

/-- `readDataBlocks` (proto.go:342-381). -/
def readDataBlocks (rd : List Tok) : Option Result × Option Err × List Tok :=
  goDataBlocks rd.length none {} rd

/-- The loop body of `readSampleBlock` (proto.go:316-340).  Data: decode a
fresh block and return it; TableColumns: skip; Exception: return the
decoded exception; anything else (including EndOfStream): unexpected
packet. -/
def goSampleBlock : Nat → List Tok → Option Block × Option Err × List Tok
  | 0, rd => (none, some (Err.io "no fuel"), rd)
  | fuel + 1, rd =>
    match rd with
    | Tok.uvarint packet :: rd1 =>
      if packet = serverData then
        match readBlock rd1 {} with
        | (block, none, rd2) => (some block, none, rd2)
        | (_, some e, rd2) => (none, some e, rd2)
      else if packet = serverTableColumns then
        match readServerTableColumns rd1 with
        | (none, rd2) => goSampleBlock fuel rd2
        | (some e, rd2) => (none, some e, rd2)
      else if packet = serverException then
        let p := readException rd1
        (none, some p.1, p.2)
      else
        (none, some (Err.unexpected "readSampleBlock" packet), rd1)
    | rdx => (none, some (tokErr rdx), rdx)

/-- `readSampleBlock` (proto.go:316-340). -/
def readSampleBlock (rd : List Tok) : Option Block × Option Err × List Tok :=
  goSampleBlock rd.length rd

/-- `readPacket` (proto.go:383-413): a single read, no loop.  Progress /
ProfileInfo / TableColumns / EndOfStream return a fresh (empty) result;
Exception returns a nil result with the decoded exception; anything else a
nil result with an unexpected-packet error. -/
def readPacket (rd : List Tok) : Option Result × Option Err × List Tok :=
  match rd with
  | Tok.uvarint packet :: rd1 =>
    if packet = serverException then
      let p := readException rd1
      (none, some p.1, p.2)
    else if packet = serverProgress then
      match readProgress rd1 with
      | (none, rd2) => (some {}, none, rd2)
      | (some e, rd2) => (none, some e, rd2)
    else if packet = serverProfileInfo then
      match readProfileInfo rd1 with
      | (none, rd2) => (some {}, none, rd2)
      | (some e, rd2) => (none, some e, rd2)
    else if packet = serverTableColumns then
      match readServerTableColumns rd1 with
      | (none, rd2) => (some {}, none, rd2)
      | (some e, rd2) => (none, some e, rd2)
    else if packet = serverEndOfStream then
      (some {}, none, rd1)
    else
      (none, some (Err.unexpected "readPacket" packet), rd1)
  | rdx => (none, some (tokErr rdx), rdx)

/-- The loop body of `readPong` (proto.go:220-238).  Pong or EndOfStream:
success; Exception: the decoded exception; anything else: unexpected
packet.  (The Go loop never actually iterates — every arm returns — but
the source is written as a loop, so the embedding keeps the shape.) -/
def goPong : Nat → List Tok → Option Err × List Tok
  | 0, rd => (some (Err.io "no fuel"), rd)
  | _fuel + 1, rd =>
    match rd with
    | Tok.uvarint packet :: rd1 =>
      if packet = serverPong then (none, rd1)
      else if packet = serverException then
        let p := readException rd1
        (some p.1, p.2)
      else if packet = serverEndOfStream then (none, rd1)
      else (some (Err.unexpected "readPong" packet), rd1)
    | rdx => (some (tokErr rdx), rdx)

/-- `readPong` (proto.go:220-238). -/
def readPong (rd : List Tok) : Option Err × List Tok :=
  goPong rd.length rd

/-! ## Streaming block iterator -/

/-- `blockIter` (proto.go:23-28): `conn` models `cn != nil` (Open vs
Closed), `stickyErr` the recorded sticky error. -/
structure BlockIter where
  conn : Bool
  stickyErr : Option Err
deriving Repr

/-- `newBlockIter` (proto.go:30-35). -/
def newBlockIter : BlockIter := { conn := true, stickyErr := none }

/-- `blockIter.Err` (proto.go:49-51). -/
def iterErr (it : BlockIter) : Option Err := it.stickyErr

/-- The private `blockIter.close` (proto.go:44-47): releases the
connection (with the sticky error) and clears it. -/
def iterCloseConn (it : BlockIter) : BlockIter := { it with conn := false }

/-- The public `blockIter.Close` (proto.go:37-42): closes when still open,
always returns nil. -/
def iterClose (it : BlockIter) : BlockIter × Option Err :=
  (if it.conn then iterCloseConn it else it, none)

/-- The loop body of `blockIter.read` (proto.go:72-106).  Data: decode
into the block supplied by the caller and report one more block; Progress / ProfileInfo
/ TableColumns: skip; EndOfStream: report exhaustion; Exception /
unrecognized opcode: error. -/
def goIterRead : Nat → Block → List Tok → (Bool × Option Err) × Block × List Tok
  | 0, block, rd => ((false, some (Err.io "no fuel")), block, rd)
  | fuel + 1, block, rd =>
    match rd with
    | Tok.uvarint packet :: rd1 =>
      if packet = serverData then
        match readBlock rd1 block with
        | (block', none, rd2) => ((true, none), block', rd2)
        | (block', some e, rd2) => ((false, some e), block', rd2)
      else if packet = serverException then
        let p := readException rd1
        ((false, some p.1), block, p.2)
      else if packet = serverProgress then
        match readProgress rd1 with
        | (none, rd2) => goIterRead fuel block rd2
        | (some e, rd2) => ((false, some e), block, rd2)
      else if packet = serverProfileInfo then
        match readProfileInfo rd1 with
        | (none, rd2) => goIterRead fuel block rd2
        | (some e, rd2) => ((false, some e), block, rd2)
      else if packet = serverTableColumns then
        match readServerTableColumns rd1 with
        | (none, rd2) => goIterRead fuel block rd2
        | (some e, rd2) => ((false, some e), block, rd2)
      else if packet = serverEndOfStream then
        ((false, none), block, rd1)
      else
        ((false, some (Err.unexpected "blockIter.Next" packet)), block, rd1)
    | rdx => ((false, some (tokErr rdx)), block, rdx)

/-- `blockIter.read` (proto.go:72-106). -/
def iterRead (block : Block) (rd : List Tok) : (Bool × Option Err) × Block × List Tok :=
  goIterRead rd.length block rd

/-- `blockIter.Next` (proto.go:53-70).  Returns the new iterator state,
the pull outcome, the (possibly filled) block, and the remaining stream;
when the iterator is already Closed it returns immediately — the stream
comes back untouched, i.e. no network read happens. -/
def iterNext (it : BlockIter) (block : Block) (rd : List Tok) :
    BlockIter × Bool × Block × List Tok :=
  if it.conn = false then (it, false, block, rd)
  else
    match iterRead block rd with
    | ((ok, none), block', rd') =>
      if ok then (it, true, block', rd')
      else (iterCloseConn it, false, block', rd')
    | ((_, some e), block', rd') =>
      (iterCloseConn { it with stickyErr := some e }, false, block', rd')

/-! ## Handshake -/

/-- Modelled from the spec: `ServerInfo` (§3) lives in the external
`chpool` package — negotiated connection metadata: name and version
major / minor / revision, populated exactly once during the handshake. -/
structure ServerInfo where
  name : String
  major : Nat
  minor : Nat
  revision : Nat
deriving Repr, DecidableEq

/-- Modelled from the spec: `ServerInfo.ReadFrom` (external `chpool`
package) reads the server name and the three version numbers. -/
def serverInfoReadFrom : List Tok → Except Err (ServerInfo × List Tok)
  | Tok.str n :: Tok.uvarint major :: Tok.uvarint minor :: Tok.uvarint rev :: rest =>
    .ok ({ name := n, major := major, minor := minor, revision := rev }, rest)
  | rd => .error (tokErr rd)

/-- The response half of `DB.hello` (proto.go:121-134): reads exactly one
opcode and dispatches — ServerHello populates the `ServerInfo`,
ServerException returns the decoded exception, anything else fails with an
unexpected-packet error carrying the opcode.  No loop, no retry. -/
def helloRead : List Tok → Option Err × Option ServerInfo × List Tok
  | Tok.uvarint packet :: rd1 =>
    if packet = serverHello then
      match serverInfoReadFrom rd1 with
      | .ok (si, rd2) => (none, some si, rd2)
      | .error e => (some e, none, rd1)
    else if packet = serverException then
      let p := readException rd1
      (some p.1, none, p.2)
    else
      (some (Err.unexpected "hello" packet), none, rd1)
  | rdx => (some (tokErr rdx), none, rdx)

/-- `DB.hello` (proto.go:108-135): when the client-hello write fails, its
error is returned before any read; otherwise the single response packet is
read and dispatched by `helloRead`. -/
def hello (writeErr : Option Err) (rd : List Tok) : Option Err × Option ServerInfo × List Tok :=
  match writeErr with
  | some e => (some e, none, rd)
  | none => helloRead rd

/-! ## Settings serialization -/

/-- One token of the write-side stream emitted by `chproto.Writer`. -/
inductive WTok where
  | wstr (s : String)
  | wuvarint (n : Nat)
  | wbool (b : Bool)
deriving Repr, DecidableEq

/-- The dynamic type of one settings value, mirroring the type switch in
`DB.writeSettings` (proto.go:272-285): Go `string`, `int`, `int64`,
`uint64`, `bool`, and `other` for every type outside the switch (carrying
the type name used in the panic message). -/
inductive SettingValue where
  | text (s : String)
  | int (i : Int)
  | int64 (i : Int)
  | uint64 (n : Nat)
  | boolean (b : Bool)
  | other (typeName : String)
deriving Repr, DecidableEq

/-- Go `uint64(value)` on a signed 64-bit value: twos-complement
conversion, i.e. reduction modulo 2^64. -/
def toUInt64Bits (i : Int) : Nat := (i % (2 ^ 64 : Int)).toNat

/-- `DB.writeSettings` (proto.go:269-289) over one iteration order of the
settings map.  For each setting the key is written first, then the value
according to its dynamic type; a value outside the four supported kinds
panics (second component `some panicMessage`), leaving the tokens buffered
so far — including the key of that setting — and emitting nothing further.  A
complete pass appends the empty-string end-of-settings sentinel. -/
def writeSettings : List (String × SettingValue) → List WTok × Option String
  | [] => ([WTok.wstr ""], none)
  | (key, v) :: rest =>
    match v with
    | .text s =>
      let p := writeSettings rest
      (WTok.wstr key :: WTok.wstr s :: p.1, p.2)
    | .int i =>
      let p := writeSettings rest
      (WTok.wstr key :: WTok.wuvarint (toUInt64Bits i) :: p.1, p.2)
    | .int64 i =>
      let p := writeSettings rest
      (WTok.wstr key :: WTok.wuvarint (toUInt64Bits i) :: p.1, p.2)
    | .uint64 n =>
      let p := writeSettings rest
      (WTok.wstr key :: WTok.wuvarint n :: p.1, p.2)
    | .boolean b =>
      let p := writeSettings rest
      (WTok.wstr key :: WTok.wbool b :: p.1, p.2)
    | .other t =>
      ([WTok.wstr key], some (key ++ " setting has unsupported type: " ++ t))

/-- A settings value the type switch accepts. -/
def SettingValue.supported : SettingValue → Bool
  | .other _ => false
  | _ => true

/-- The tokens one setting contributes to the wire: its key, then its
value in the encoding the type switch picks; an unsupported value gets no
further than the key. -/
def settingToks : String × SettingValue → List WTok
  | (key, .text s) => [WTok.wstr key, WTok.wstr s]
  | (key, .int i) => [WTok.wstr key, WTok.wuvarint (toUInt64Bits i)]
  | (key, .int64 i) => [WTok.wstr key, WTok.wuvarint (toUInt64Bits i)]
  | (key, .uint64 n) => [WTok.wstr key, WTok.wuvarint n]
  | (key, .boolean b) => [WTok.wstr key, WTok.wbool b]
  | (key, .other _) => [WTok.wstr key]

/-! ## Migration runner (package chmigrate) -/

/-- Go `strings.Contains`. -/
def strContains (s sub : String) : Bool :=
  (List.range (s.toList.length + 1)).any (fun i => sub.toList.isPrefixOf (s.toList.drop i))

/-- `Migrator.Lock` (part_000:374-383): any failure of the add-column DDL
is wrapped into an "already locked" error; success is nil.  The DDL
execution itself is external — its outcome (the error text, if any) is the
argument. -/
def lockResult (execErr : Option String) : Option String :=
  match execErr with
  | some msg => some ("chmigrate: migrations table is already locked (" ++ msg ++ ")")
  | none => none

/-- `Migrator.Unlock` (part_000:385-394): a drop-column failure containing
"Cannot find column" is suppressed (nil); any other failure is wrapped
into an "already unlocked" error; success is nil. -/
def unlockResult (execErr : Option String) : Option String :=
  match execErr with
  | some msg =>
    if strContains msg "Cannot find column" then none
    else some ("chmigrate: migrations table is already unlocked (" ++ msg ++ ")")
  | none => none

/-- Outcome of one iteration of the per-migration loop in
`Migrator.Migrate` / `Migrator.Rollback`: whether the mark-applied /
mark-unapplied insert ran, whether the loop returned, and the error the
function returned (meaningful when `stopped`). -/
structure StepOut where
  marked : Bool
  stopped : Bool
  err : Option String
deriving Repr, DecidableEq

/-- One iteration of the loop in `Migrator.Migrate` (part_000:157-178).
`upErr` is what `migration.Up` returns, `markErr` what `MarkApplied`
returns.  The source reads:
`var err error;`
`if !cfg.nop || migration.Up != nil { err = migration.Up(...); if err != nil && m.applyOnSuccess { return group, err } };`
`if applyErr := m.MarkApplied(...); err != nil { return group, applyErr };`
`if err != nil { return group, err }` — note that the second `if` tests
`err` but returns `applyErr`, which makes the third `if` dead code; the
embedding preserves both branches verbatim. -/
def migrateStep (applyOnSuccess nop hasUp : Bool) (upErr markErr : Option String) : StepOut :=
  let err : Option String := if !nop || hasUp then upErr else none
  if err.isSome && applyOnSuccess then
    { marked := false, stopped := true, err := err }
  else if err.isSome then
    { marked := true, stopped := true, err := markErr }
  else if err.isSome then
    { marked := true, stopped := true, err := err }
  else
    { marked := true, stopped := false, err := none }

/-- One iteration of the loop in `Migrator.Rollback` (part_000:202-222),
same shape as `migrateStep` with `Down` / `MarkUnapplied` (and the guard
`!cfg.nop && migration.Down != nil`). -/
def rollbackStep (applyOnSuccess nop hasDown : Bool) (downErr markErr : Option String) : StepOut :=
  let err : Option String := if !nop && hasDown then downErr else none
  if err.isSome && applyOnSuccess then
    { marked := false, stopped := true, err := err }
  else if err.isSome then
    { marked := true, stopped := true, err := markErr }
  else if err.isSome then
    { marked := true, stopped := true, err := err }
  else
    { marked := true, stopped := false, err := none }

/-! ## Well-formed wire streams

Encoders producing the token streams the theorems quantify over: a
well-formed exception payload of a given caused-by chain, a well-formed
Data-packet block body, and a response stream for the data-blocks
accumulate loop. -/

/-- One level of an exception payload: code, name, wire message, stack
trace. -/
abbrev ExcLevel := Int × String × String × String

/-- Wire encoding of an exception whose caused-by chain consists of the
given levels: each non-final level sets the has-nested flag. -/
def excToks : List ExcLevel → List Tok
  | [] => []
  | (c, n, m, s) :: rest =>
    Tok.int32 c :: Tok.str n :: Tok.str m :: Tok.str s ::
      Tok.boolean (!rest.isEmpty) :: excToks rest

/-- The `ch.Error` value `readException` produces from a chain of levels
(meaningful for nonempty chains). -/
def excFromLevels : List ExcLevel → Err
  | [] => Err.io "EOF"
  | [(c, n, m, s)] => Err.exc c n (trimSpace (trimPrefix m (n ++ ":"))) s none
  | (c, n, m, s) :: rest =>
    Err.exc c n (trimSpace (trimPrefix m (n ++ ":"))) s (some (excFromLevels rest))

/-- Length of the nested caused-by chain hanging off an error. -/
def nestedDepth : Err → Nat
  | .exc _ _ _ _ (some e) => nestedDepth e + 1
  | _ => 0

/-- One response packet consumed (and not terminal) in the data-blocks
accumulate loop: a Data packet carrying a block, or one of the skipped
informational packets with its payload values. -/
inductive DBPkt where
  | data (tbl : String) (cols : List (String × String)) (rows : Nat)
  | progress (a b c d e : Nat)
  | profileInfo (a b c : Nat) (d : Bool) (e : Nat) (f : Bool)
  | tableColumns (s t : String)
deriving Repr

/-- Wire encoding of a well-formed block body as read by `readBlock`:
table name, block info, column count, row count, then per column the name,
type tag and the opaque codec body. -/
def blockToks (tbl : String) (cols : List (String × String)) (rows : Nat) : List Tok :=
  Tok.str tbl :: Tok.uvarint 1 :: Tok.boolean false :: Tok.uvarint 2 :: Tok.int32 (-1) ::
    Tok.uvarint 0 :: Tok.uvarint cols.length :: Tok.uvarint rows ::
    (cols.flatMap fun c => [Tok.str c.1, Tok.str c.2, Tok.colData])

/-- Wire encoding of one non-terminal packet of the accumulate loop. -/
def dbPktToks : DBPkt → List Tok
  | .data tbl cols rows => Tok.uvarint serverData :: blockToks tbl cols rows
  | .progress a b c d e =>
    [Tok.uvarint serverProgress, Tok.uvarint a, Tok.uvarint b, Tok.uvarint c,
      Tok.uvarint d, Tok.uvarint e]
  | .profileInfo a b c d e f =>
    [Tok.uvarint serverProfileInfo, Tok.uvarint a, Tok.uvarint b, Tok.uvarint c,
      Tok.boolean d, Tok.uvarint e, Tok.boolean f]
  | .tableColumns s t => [Tok.uvarint serverTableColumns, Tok.str s, Tok.str t]

/-- A full response stream for the accumulate loop: the packets in order,
terminated by EndOfStream. -/
def dbStream (ps : List DBPkt) : List Tok :=
  (ps.flatMap dbPktToks) ++ [Tok.uvarint serverEndOfStream]

/-- A Data packet is well formed when every column has a nonempty name and
a nonempty type tag; the informational packets always are. -/
def DBPkt.wf : DBPkt → Prop
  | .data _ cols _ => ∀ c ∈ cols, c.1 ≠ "" ∧ c.2 ≠ ""
  | _ => True

/-- Row count contributed by one packet: the row count of a Data packet,
zero otherwise. -/
def DBPkt.rows : DBPkt → Nat
  | .data _ _ rows => rows
  | _ => 0

/-- Whether a packet is a Data packet. -/
def DBPkt.isData : DBPkt → Bool
  | .data _ _ _ => true
  | _ => false

/-- The accumulator state of the loop after consuming the packets,
starting from `res`: unchanged by informational packets, allocated on the
first Data packet, its counter grown by the row count of each Data packet. -/
def accumResult (res : Option Result) : List DBPkt → Option Result
  | [] => res
  | .data _ _ rows :: rest =>
    accumResult (some { affected := (res.getD {}).affected + rows }) rest
  | _ :: rest => accumResult res rest

/-! ## Theorems -/

/-- Controlled one-level unfolding of `readException` on a well-formed
five-field prefix. -/
theorem readException_level (c : Int) (n m s : String) (b : Bool) (rest : List Tok) :
    readException (Tok.int32 c :: Tok.str n :: Tok.str m :: Tok.str s ::
        Tok.boolean b :: rest)
      = if b then
          (Err.exc c n (trimSpace (trimPrefix m (n ++ ":"))) s (some (readException rest).1),
            (readException rest).2)
        else
          (Err.exc c n (trimSpace (trimPrefix m (n ++ ":"))) s none, rest) := by
  cases b <;> simp [readException]

/-- Decoding a well-formed exception payload yields the error described by
`excFromLevels`, consuming exactly the payload. -/
theorem readException_excToks :
    ∀ (l : List ExcLevel), l ≠ [] → ∀ (rest : List Tok),
      readException (excToks l ++ rest) = (excFromLevels l, rest)
  | [], h, _ => absurd rfl h
  | [(c, n, m, s)], _, rest => by
    simp [excToks, readException_level, excFromLevels]
  | (c, n, m, s) :: (c2, n2, m2, s2) :: es, _, rest => by
    have h := readException_excToks ((c2, n2, m2, s2) :: es) (by simp) rest
    simp only [excToks, List.cons_append] at h ⊢
    rw [readException_level]
    simp only [List.isEmpty_cons, Bool.not_false, if_true]
    rw [h]
    simp [excFromLevels]

/-- The chain produced from `N + 1` levels has exactly `N` nested
causes. -/
theorem nestedDepth_excFromLevels (es : List ExcLevel) :
    ∀ (e : ExcLevel), nestedDepth (excFromLevels (e :: es)) = es.length := by
  induction es with
  | nil =>
    intro e
    obtain ⟨c, n, m, s⟩ := e
    simp [excFromLevels, nestedDepth]
  | cons e2 es2 ih =>
    intro e
    obtain ⟨c, n, m, s⟩ := e
    simp [excFromLevels, nestedDepth, ih e2]

/-- C3 (counterexample): the claim that a decoded message never starts
with the redundant name-colon prefix is false — `strings.TrimPrefix`
strips the prefix only once, so name `E` with wire message `E:E:x` decodes
to message `E:x`, which still starts with `E:`. -/
theorem C3_cex_prefix_remains :
    (readException [Tok.int32 1, Tok.str "E", Tok.str "E:E:x", Tok.str "",
        Tok.boolean false]).1
      = Err.exc 1 "E" "E:x" "" none
    ∧ ("E" ++ ":").toList.isPrefixOf "E:x".toList = true := by
  exact ⟨rfl, by decide⟩

/-- C3 (amended): a well-formed exception payload whose has-nested flag is
true `N` times decodes into an Exception with exactly `N` linked nested
causes, innermost last; the message at each level is the wire message with one
leading occurrence of that level, namely its own name followed by a colon, stripped
and surrounding whitespace trimmed (a repeated or whitespace-hidden prefix
may therefore remain). -/
theorem C3_exception_chain (e : ExcLevel) (es : List ExcLevel) (rest : List Tok) :
    readException (excToks (e :: es) ++ rest) = (excFromLevels (e :: es), rest)
    ∧ nestedDepth (excFromLevels (e :: es)) = es.length
    ∧ (readException (excToks (e :: es) ++ rest)).1
        = Err.exc e.1 e.2.1 (trimSpace (trimPrefix e.2.2.1 (e.2.1 ++ ":"))) e.2.2.2
            (if es = [] then none else some (excFromLevels es)) := by
  obtain ⟨c, n, m, s⟩ := e
  refine ⟨readException_excToks _ (by simp) rest, nestedDepth_excFromLevels es _, ?_⟩
  rw [readException_excToks _ (by simp) rest]
  cases es with
  | nil => simp [excFromLevels]
  | cons e2 es2 => simp [excFromLevels]

/-- C10: once the outer five fields of an exception payload have been read
successfully, `readException` always returns the decoded Exception value
(never nil): with the has-nested flag false it returns the Exception with
no cause; with the flag true it returns the outer Exception with whatever
the recursive decode produced attached as the nested cause — in
particular, when the nested decode hits a transport error, the outer
Exception is still returned, with the transport error as its cause. -/
theorem C10_outer_exception_survives_nested_failure :
    (∀ (c : Int) (n m s : String) (rest : List Tok),
      readException (Tok.int32 c :: Tok.str n :: Tok.str m :: Tok.str s ::
          Tok.boolean false :: rest)
        = (Err.exc c n (trimSpace (trimPrefix m (n ++ ":"))) s none, rest))
    ∧ (∀ (c : Int) (n m s : String) (rest : List Tok),
      readException (Tok.int32 c :: Tok.str n :: Tok.str m :: Tok.str s ::
          Tok.boolean true :: rest)
        = (Err.exc c n (trimSpace (trimPrefix m (n ++ ":"))) s
            (some (readException rest).1), (readException rest).2))
    ∧ (∀ (c : Int) (n m s emsg : String) (rest : List Tok),
      readException (Tok.int32 c :: Tok.str n :: Tok.str m :: Tok.str s ::
          Tok.boolean true :: Tok.ioErr emsg :: rest)
        = (Err.exc c n (trimSpace (trimPrefix m (n ++ ":"))) s
            (some (Err.io emsg)), Tok.ioErr emsg :: rest)) := by
  refine ⟨?_, ?_, ?_⟩
  · intro c n m s rest
    simp [readException_level]
  · intro c n m s rest
    simp [readException_level]
  · intro c n m s emsg rest
    simp [readException_level, readException, tokErr]

/-- C6: during block decode, a column with an empty name aborts with the
"empty column name" error and a column with an empty type aborts with the
"empty type" error naming the column; in both cases the remaining stream
is returned untouched — no further columns are read. -/
theorem C6_empty_column_aborts :
    (∀ (tbl : String) (a c e ncol nrow : Nat) (b : Bool) (d : Int) (blk : Block)
        (rest : List Tok),
      readBlock (Tok.str tbl :: Tok.uvarint a :: Tok.boolean b :: Tok.uvarint c ::
          Tok.int32 d :: Tok.uvarint e :: Tok.uvarint (ncol + 1) :: Tok.uvarint nrow ::
          Tok.str "" :: rest) blk
        = ({ blk with NumColumn := ncol + 1, NumRow := nrow }, some Err.emptyColName, rest))
    ∧ (∀ (tbl : String) (a c e ncol nrow : Nat) (b : Bool) (d : Int) (blk : Block)
        (colName : String) (rest : List Tok), colName ≠ "" →
      readBlock (Tok.str tbl :: Tok.uvarint a :: Tok.boolean b :: Tok.uvarint c ::
          Tok.int32 d :: Tok.uvarint e :: Tok.uvarint (ncol + 1) :: Tok.uvarint nrow ::
          Tok.str colName :: Tok.str "" :: rest) blk
        = ({ blk with NumColumn := ncol + 1, NumRow := nrow },
            some (Err.emptyColType colName), rest))
    ∧ (∀ colName, errMsg (Err.emptyColType colName)
        = "ch: column=" ++ colName ++ " has empty type")
    ∧ errMsg Err.emptyColName = "ch: column has empty name" := by
  refine ⟨?_, ?_, fun _ => rfl, rfl⟩
  · intro tbl a c e ncol nrow b d blk rest
    simp [readBlock, readBlockInfo, readColumns]
  · intro tbl a c e ncol nrow b d blk colName rest hname
    simp [readBlock, readBlockInfo, readColumns, hname]

/-- C6 witness: a two-column block whose second column (`col1`) has an
empty type aborts with the error naming `col1`. -/
theorem C6_empty_column_aborts_witness :
    readBlock [Tok.str "t", Tok.uvarint 1, Tok.boolean false, Tok.uvarint 2,
        Tok.int32 (-1), Tok.uvarint 0, Tok.uvarint 1, Tok.uvarint 7,
        Tok.str "col1", Tok.str ""] {}
      = ({ NumColumn := 1, NumRow := 7, columns := [] },
          some (Err.emptyColType "col1"), [])
    ∧ errMsg (Err.emptyColType "col1") = "ch: column=col1 has empty type" := by
  obtain ⟨h1, h2, h3, h4⟩ := C6_empty_column_aborts
  exact ⟨h2 "t" 1 2 0 0 7 false (-1) {} "col1" [] (by decide), h3 "col1"⟩

/-- C1: in every packet-dispatch loop — the data-blocks accumulate loop,
the sample-block loop, the single-packet read and the pong loop — reading
a ServerException packet at any point (any accumulator state, any
remaining fuel) stops the loop and returns the decoded exception with no
partial result, and reading an opcode outside the recognized
vocabulary stops it with an unexpected-packet error carrying the numeric
opcode, again with no partial result. -/
theorem C1_dispatch_exception_and_unknown :
    (∀ (fuel : Nat) (res : Option Result) (blk : Block) (rest : List Tok),
      goDataBlocks (fuel + 1) res blk (Tok.uvarint serverException :: rest)
        = (none, some (readException rest).1, (readException rest).2))
    ∧ (∀ (fuel : Nat) (res : Option Result) (blk : Block) (op : Nat) (rest : List Tok),
        op ≠ serverData → op ≠ serverException → op ≠ serverProgress →
        op ≠ serverProfileInfo → op ≠ serverTableColumns → op ≠ serverEndOfStream →
        goDataBlocks (fuel + 1) res blk (Tok.uvarint op :: rest)
          = (none, some (Err.unexpected "readDataBlocks" op), rest))
    ∧ (∀ (fuel : Nat) (rest : List Tok),
        goSampleBlock (fuel + 1) (Tok.uvarint serverException :: rest)
          = (none, some (readException rest).1, (readException rest).2))
    ∧ (∀ (fuel : Nat) (op : Nat) (rest : List Tok),
        op ≠ serverData → op ≠ serverTableColumns → op ≠ serverException →
        goSampleBlock (fuel + 1) (Tok.uvarint op :: rest)
          = (none, some (Err.unexpected "readSampleBlock" op), rest))
    ∧ (∀ (rest : List Tok),
        readPacket (Tok.uvarint serverException :: rest)
          = (none, some (readException rest).1, (readException rest).2))
    ∧ (∀ (op : Nat) (rest : List Tok),
        op ≠ serverException → op ≠ serverProgress → op ≠ serverProfileInfo →
        op ≠ serverTableColumns → op ≠ serverEndOfStream →
        readPacket (Tok.uvarint op :: rest)
          = (none, some (Err.unexpected "readPacket" op), rest))
    ∧ (∀ (fuel : Nat) (rest : List Tok),
        goPong (fuel + 1) (Tok.uvarint serverException :: rest)
          = (some (readException rest).1, (readException rest).2))
    ∧ (∀ (fuel : Nat) (op : Nat) (rest : List Tok),
        op ≠ serverPong → op ≠ serverException → op ≠ serverEndOfStream →
        goPong (fuel + 1) (Tok.uvarint op :: rest)
          = (some (Err.unexpected "readPong" op), rest))
    ∧ (∀ (fn : String) (op : Nat),
        errMsg (Err.unexpected fn op) = "ch: " ++ fn ++ ": unexpected packet: " ++ toString op) := by
  refine ⟨?_, ?_, ?_, ?_, ?_, ?_, ?_, ?_, fun _ _ => rfl⟩
  · intro fuel res blk rest
    simp [goDataBlocks, serverData, serverException]
  · intro fuel res blk op rest h1 h2 h3 h4 h5 h6
    simp [goDataBlocks, h1, h2, h3, h4, h5, h6]
  · intro fuel rest
    simp [goSampleBlock, serverData, serverTableColumns, serverException]
  · intro fuel op rest h1 h2 h3
    simp [goSampleBlock, h1, h2, h3]
  · intro rest
    simp [readPacket, serverException]
  · intro op rest h1 h2 h3 h4 h5
    simp [readPacket, h1, h2, h3, h4, h5]
  · intro fuel rest
    simp [goPong, serverPong, serverException]
  · intro fuel op rest h1 h2 h3
    simp [goPong, h1, h2, h3]

/-- C1 witness: opcode 255 (outside every vocabulary) aborts each of the
four loops with an unexpected-packet error naming 255, with no result, and
an exception packet aborts the accumulate loop with the decoded
exception. -/
theorem C1_dispatch_witness :
    goDataBlocks 1 none {} [Tok.uvarint 255]
      = (none, some (Err.unexpected "readDataBlocks" 255), [])
    ∧ goSampleBlock 1 [Tok.uvarint 255]
      = (none, some (Err.unexpected "readSampleBlock" 255), [])
    ∧ readPacket [Tok.uvarint 255]
      = (none, some (Err.unexpected "readPacket" 255), [])
    ∧ goPong 1 [Tok.uvarint 255] = (some (Err.unexpected "readPong" 255), [])
    ∧ goDataBlocks 1 none {}
        [Tok.uvarint serverException, Tok.int32 9, Tok.str "N", Tok.str "N: boom",
          Tok.str "", Tok.boolean false]
      = (none, some (Err.exc 9 "N" "boom" "" none), []) := by
  obtain ⟨h1, h2, h3, h4, h5, h6, h7, h8, h9⟩ := C1_dispatch_exception_and_unknown
  refine ⟨h2 0 none {} 255 [] (by decide) (by decide) (by decide) (by decide)
      (by decide) (by decide),
    h4 0 255 [] (by decide) (by decide) (by decide),
    h6 255 [] (by decide) (by decide) (by decide) (by decide) (by decide),
    h8 0 255 [] (by decide) (by decide) (by decide), ?_⟩
  rw [h1 0 none {} [Tok.int32 9, Tok.str "N", Tok.str "N: boom", Tok.str "", Tok.boolean false]]
  rfl

/-- The per-column loop succeeds on an encoded column list whose names and
types are nonempty, appending the columns in wire order and leaving the
trailing stream untouched. -/
theorem readColumns_toks (cols : List (String × String)) :
    ∀ (numRow : Nat) (blk : Block) (rest : List Tok),
      (∀ c ∈ cols, c.1 ≠ "" ∧ c.2 ≠ "") →
      readColumns cols.length numRow blk
          ((cols.flatMap fun c => [Tok.str c.1, Tok.str c.2, Tok.colData]) ++ rest)
        = ({ blk with columns := blk.columns ++ cols }, none, rest) := by
  induction cols with
  | nil =>
    intro numRow blk rest _
    simp [readColumns]
  | cons c cs ih =>
    intro numRow blk rest h
    obtain ⟨hn, ht⟩ := h c (List.mem_cons_self c cs)
    simp only [List.flatMap_cons, List.cons_append, List.append_assoc, List.length_cons]
    simp [readColumns, hn, ht,
      ih numRow { blk with columns := blk.columns ++ [c] } rest
        (fun x hx => h x (List.mem_cons_of_mem c hx))]

/-- `readBlock` succeeds on a well-formed encoded block, recording the
column and row counts and consuming exactly the block payload. -/
theorem readBlock_toks (tbl : String) (cols : List (String × String)) (rows : Nat)
    (blk : Block) (rest : List Tok) (h : ∀ c ∈ cols, c.1 ≠ "" ∧ c.2 ≠ "") :
    readBlock (blockToks tbl cols rows ++ rest) blk
      = ({ blk with NumColumn := cols.length, NumRow := rows, columns := blk.columns ++ cols }, none, rest) := by
  simp [blockToks, readBlock, readBlockInfo, readColumns_toks cols rows _ rest h]

/-- The accumulate loop on a well-formed stream, from any accumulator
state and any sufficient fuel, consumes the whole stream and returns the
accumulated result. -/
theorem goDataBlocks_dbStream (ps : List DBPkt) :
    ∀ (fuel : Nat) (res : Option Result) (blk : Block),
      (∀ p ∈ ps, p.wf) → ps.length < fuel →
      goDataBlocks fuel res blk (dbStream ps) = (accumResult res ps, none, []) := by
  induction ps with
  | nil =>
    intro fuel res blk _ hfuel
    cases fuel with
    | zero => omega
    | succ f =>
      simp [dbStream, goDataBlocks, accumResult, serverData, serverException,
        serverProgress, serverProfileInfo, serverTableColumns, serverEndOfStream]
  | cons p ps ih =>
    intro fuel res blk hwf hfuel
    cases fuel with
    | zero => omega
    | succ f =>
      have hwfp := hwf p (List.mem_cons_self p ps)
      have hwfr : ∀ q ∈ ps, q.wf := fun q hq => hwf q (List.mem_cons_of_mem p hq)
      have hf : ps.length < f := by simpa using Nat.lt_of_succ_lt_succ hfuel
      cases p with
      | data tbl cols rows =>
        have hcols : ∀ c ∈ cols, c.1 ≠ "" ∧ c.2 ≠ "" := hwfp
        simp only [dbStream, List.flatMap_cons, dbPktToks, List.cons_append,
          List.append_assoc]
        simp [goDataBlocks, serverData,
          readBlock_toks tbl cols rows blk (ps.flatMap dbPktToks ++ [Tok.uvarint serverEndOfStream]) hcols,
          accumResult]
        exact ih f _ _ hwfr hf
      | progress a b c d e =>
        simp only [dbStream, List.flatMap_cons, dbPktToks, List.cons_append,
          List.append_assoc]
        simp [goDataBlocks, serverProgress, serverData, serverException, readProgress,
          accumResult]
        exact ih f res blk hwfr hf
      | profileInfo a b c d e f2 =>
        simp only [dbStream, List.flatMap_cons, dbPktToks, List.cons_append,
          List.append_assoc]
        simp [goDataBlocks, serverProfileInfo, serverData, serverException,
          serverProgress, readProfileInfo, accumResult]
        exact ih f res blk hwfr hf
      | tableColumns s t =>
        simp only [dbStream, List.flatMap_cons, dbPktToks, List.cons_append,
          List.append_assoc]
        simp [goDataBlocks, serverTableColumns, serverData, serverException,
          serverProgress, serverProfileInfo, readServerTableColumns, accumResult]
        exact ih f res blk hwfr hf

/-- Once allocated, the accumulator ends up holding its start value plus
the row counts of all remaining Data packets. -/
theorem accumResult_some (ps : List DBPkt) :
    ∀ (r : Result), accumResult (some r) ps
      = some { affected := r.affected + (ps.map DBPkt.rows).sum } := by
  induction ps with
  | nil => intro r; simp [accumResult]
  | cons p ps ih =>
    intro r
    cases p with
    | data tbl cols rows =>
      simp [accumResult, DBPkt.rows, ih, Nat.add_assoc]
    | progress a b c d e => simp [accumResult, DBPkt.rows, ih]
    | profileInfo a b c d e f => simp [accumResult, DBPkt.rows, ih]
    | tableColumns s t => simp [accumResult, DBPkt.rows, ih]

/-- Starting from a nil accumulator: no Data packet keeps it nil, any Data
packet makes it the sum of all Data row counts. -/
theorem accumResult_none (ps : List DBPkt) :
    ((∀ p ∈ ps, p.isData = false) → accumResult none ps = none)
    ∧ ((∃ p ∈ ps, p.isData = true) →
        accumResult none ps = some { affected := (ps.map DBPkt.rows).sum }) := by
  induction ps with
  | nil =>
    refine ⟨fun _ => rfl, ?_⟩
    rintro ⟨p, hp, _⟩
    exact absurd hp (List.not_mem_nil p)
  | cons p ps ih =>
    cases p with
    | data tbl cols rows =>
      refine ⟨fun h => ?_, fun _ => ?_⟩
      · exact absurd (h _ (List.mem_cons_self _ _)) (by simp [DBPkt.isData])
      · simp [accumResult, DBPkt.rows, accumResult_some]
    | progress a b c d e =>
      refine ⟨fun h => ?_, fun h => ?_⟩
      · simpa [accumResult] using ih.1 (fun q hq => h q (List.mem_cons_of_mem _ hq))
      · obtain ⟨q, hq, hqd⟩ := h
        rcases List.mem_cons.mp hq with hq1 | hq2
        · subst hq1; simp [DBPkt.isData] at hqd
        · simpa [accumResult, DBPkt.rows] using ih.2 ⟨q, hq2, hqd⟩
    | profileInfo a b c d e f =>
      refine ⟨fun h => ?_, fun h => ?_⟩
      · simpa [accumResult] using ih.1 (fun q hq => h q (List.mem_cons_of_mem _ hq))
      · obtain ⟨q, hq, hqd⟩ := h
        rcases List.mem_cons.mp hq with hq1 | hq2
        · subst hq1; simp [DBPkt.isData] at hqd
        · simpa [accumResult, DBPkt.rows] using ih.2 ⟨q, hq2, hqd⟩
    | tableColumns s t =>
      refine ⟨fun h => ?_, fun h => ?_⟩
      · simpa [accumResult] using ih.1 (fun q hq => h q (List.mem_cons_of_mem _ hq))
      · obtain ⟨q, hq, hqd⟩ := h
        rcases List.mem_cons.mp hq with hq1 | hq2
        · subst hq1; simp [DBPkt.isData] at hqd
        · simpa [accumResult, DBPkt.rows] using ih.2 ⟨q, hq2, hqd⟩

/-- Every encoded packet contributes at least one token, so the token
count strictly dominates the packet count and the fuel of the wrapper always
suffices. -/
theorem dbStream_length_gt (ps : List DBPkt) : ps.length < (dbStream ps).length := by
  induction ps with
  | nil => simp [dbStream]
  | cons p ps ih =>
    have h1 : 1 ≤ (dbPktToks p).length := by
      cases p <;> simp [dbPktToks, blockToks]
    simp only [dbStream, List.flatMap_cons, List.append_assoc, List.length_append,
      List.length_cons] at ih ⊢
    omega

/-- C2: running the data-blocks accumulate loop on any well-formed
response — Data packets interleaved with Progress / ProfileInfo /
TableColumns packets, terminated by EndOfStream — consumes the whole
stream without error and returns a Result whose affected counter is the
sum of the row counts of the Data packets; with no Data packet the result
is nil, and three Data packets of 10 rows each yield affected = 30. -/
theorem C2_affected_is_row_sum (ps : List DBPkt) (hwf : ∀ p ∈ ps, p.wf) :
    readDataBlocks (dbStream ps) = (accumResult none ps, none, [])
    ∧ ((∃ p ∈ ps, p.isData = true) →
        (readDataBlocks (dbStream ps)).1 = some { affected := (ps.map DBPkt.rows).sum })
    ∧ ((∀ p ∈ ps, p.isData = false) → (readDataBlocks (dbStream ps)).1 = none)
    ∧ readDataBlocks (dbStream [DBPkt.data "t" [("a", "UInt8")] 10,
        DBPkt.data "t" [("a", "UInt8")] 10, DBPkt.data "t" [("a", "UInt8")] 10])
      = (some { affected := 30 }, none, []) := by
  have hmain : readDataBlocks (dbStream ps) = (accumResult none ps, none, []) :=
    goDataBlocks_dbStream ps (dbStream ps).length none {} hwf (dbStream_length_gt ps)
  have h3 : readDataBlocks (dbStream [DBPkt.data "t" [("a", "UInt8")] 10,
      DBPkt.data "t" [("a", "UInt8")] 10, DBPkt.data "t" [("a", "UInt8")] 10])
      = (some { affected := 30 }, none, []) := by
    have := goDataBlocks_dbStream [DBPkt.data "t" [("a", "UInt8")] 10,
      DBPkt.data "t" [("a", "UInt8")] 10, DBPkt.data "t" [("a", "UInt8")] 10]
      (dbStream [DBPkt.data "t" [("a", "UInt8")] 10, DBPkt.data "t" [("a", "UInt8")] 10,
        DBPkt.data "t" [("a", "UInt8")] 10]).length none {}
      (by intro p hp; fin_cases hp <;> simp [DBPkt.wf])
      (dbStream_length_gt _)
    rw [readDataBlocks, this]
    simp [accumResult, accumResult_some]
  refine ⟨hmain, fun h => ?_, fun h => ?_, h3⟩
  · rw [hmain]
    simpa using (accumResult_none ps).2 h
  · rw [hmain]
    simpa using (accumResult_none ps).1 h

/-- C2 witness: the concrete three-Data-packet scenario, obtained from the
theorem at that stream. -/
theorem C2_affected_witness :
    readDataBlocks (dbStream [DBPkt.data "t" [("a", "UInt8")] 10,
        DBPkt.data "t" [("a", "UInt8")] 10, DBPkt.data "t" [("a", "UInt8")] 10])
      = (some { affected := 30 }, none, []) := by
  exact (C2_affected_is_row_sum [DBPkt.data "t" [("a", "UInt8")] 10,
    DBPkt.data "t" [("a", "UInt8")] 10, DBPkt.data "t" [("a", "UInt8")] 10]
    (by intro p hp; fin_cases hp <;> simp [DBPkt.wf])).2.2.2

/-- C4: the streaming iterator is a two-state machine.  Once Closed
(`conn = false`) every `Next` returns false with the stream untouched (no
network read); a read or decode error records the sticky error and closes
the iterator, so `Err()` is non-nil; clean exhaustion closes it leaving
the sticky error unchanged (nil when it started nil); an explicit `Close`
also closes it. -/
theorem C4_iterator_two_states :
    (∀ (it : BlockIter) (blk : Block) (rd : List Tok), it.conn = false →
      iterNext it blk rd = (it, false, blk, rd))
    ∧ (∀ (it : BlockIter) (blk : Block) (rd : List Tok) (b : Bool) (e : Err)
        (blk2 : Block) (rd2 : List Tok), it.conn = true →
        iterRead blk rd = ((b, some e), blk2, rd2) →
        iterNext it blk rd = ({ conn := false, stickyErr := some e }, false, blk2, rd2)
        ∧ iterErr (iterNext it blk rd).1 = some e
        ∧ (iterNext it blk rd).1.conn = false)
    ∧ (∀ (it : BlockIter) (blk : Block) (rd : List Tok) (blk2 : Block) (rd2 : List Tok),
        it.conn = true →
        iterRead blk rd = ((false, none), blk2, rd2) →
        iterNext it blk rd = ({ conn := false, stickyErr := it.stickyErr }, false, blk2, rd2)
        ∧ (iterNext it blk rd).1.conn = false)
    ∧ (∀ (it : BlockIter), ((iterClose it).1).conn = false ∧ (iterClose it).2 = none)
    ∧ iterErr newBlockIter = none := by
  refine ⟨?_, ?_, ?_, ?_, rfl⟩
  · intro it blk rd h
    simp [iterNext, h]
  · intro it blk rd b e blk2 rd2 hconn hread
    refine ⟨?_, ?_, ?_⟩ <;> simp [iterNext, hconn, hread, iterCloseConn, iterErr]
  · intro it blk rd blk2 rd2 hconn hread
    refine ⟨?_, ?_⟩ <;> simp [iterNext, hconn, hread, iterCloseConn]
  · intro it
    cases h : it.conn <;> simp [iterClose, iterCloseConn, h]

/-- C4 witness: a Closed iterator pulls nothing and touches no tokens; an
open iterator hitting an unrecognized opcode records it as the sticky
error and transitions to Closed; EndOfStream closes cleanly with a nil
sticky error; `Close` closes. -/
theorem C4_iterator_witness :
    iterNext { conn := false, stickyErr := none } {} [Tok.uvarint 1]
      = ({ conn := false, stickyErr := none }, false, {}, [Tok.uvarint 1])
    ∧ iterNext newBlockIter {} [Tok.uvarint 255]
      = ({ conn := false, stickyErr := some (Err.unexpected "blockIter.Next" 255) }, false, {}, [])
    ∧ iterNext newBlockIter {} [Tok.uvarint 5]
      = ({ conn := false, stickyErr := none }, false, {}, [])
    ∧ ((iterClose newBlockIter).1).conn = false := by
  obtain ⟨h1, h2, h3, h4, _⟩ := C4_iterator_two_states
  refine ⟨h1 _ {} [Tok.uvarint 1] rfl, ?_, ?_, (h4 newBlockIter).1⟩
  · exact (h2 newBlockIter {} [Tok.uvarint 255] false
      (Err.unexpected "blockIter.Next" 255) {} [] rfl (by rfl)).1
  · exact (h3 newBlockIter {} [Tok.uvarint 5] {} [] rfl (by rfl)).1

/-- C5: the handshake reads exactly one response packet.  A server-hello
populates the `ServerInfo` and succeeds, a server-exception returns the
decoded Exception as the error, and any other opcode fails immediately
with an unexpected-packet error carrying the raw opcode, with the rest of
the stream untouched — no looping, no retry. -/
theorem C5_hello_single_packet :
    (∀ (n : String) (major minor rev : Nat) (rest : List Tok),
      hello none (Tok.uvarint serverHello :: Tok.str n :: Tok.uvarint major ::
          Tok.uvarint minor :: Tok.uvarint rev :: rest)
        = (none, some { name := n, major := major, minor := minor, revision := rev }, rest))
    ∧ (∀ (rest : List Tok),
        hello none (Tok.uvarint serverException :: rest)
          = (some (readException rest).1, none, (readException rest).2))
    ∧ (∀ (op : Nat) (rest : List Tok), op ≠ serverHello → op ≠ serverException →
        hello none (Tok.uvarint op :: rest)
          = (some (Err.unexpected "hello" op), none, rest))
    ∧ (∀ (fn : String) (op : Nat),
        errMsg (Err.unexpected fn op) = "ch: " ++ fn ++ ": unexpected packet: " ++ toString op)
    ∧ (∀ (e : Err) (rd : List Tok), hello (some e) rd = (some e, none, rd)) := by
  refine ⟨?_, ?_, ?_, fun _ _ => rfl, fun _ _ => rfl⟩
  · intro n major minor rev rest
    simp [hello, helloRead, serverHello, serverInfoReadFrom]
  · intro rest
    simp [hello, helloRead, serverHello, serverException]
  · intro op rest h1 h2
    simp [hello, helloRead, h1, h2]

/-- C5 witness: a hello response with opcode 7 fails with the
unexpected-packet error carrying 7; a server-hello response populates the
`ServerInfo`. -/
theorem C5_hello_witness :
    hello none [Tok.uvarint 7, Tok.str "x"]
      = (some (Err.unexpected "hello" 7), none, [Tok.str "x"])
    ∧ hello none [Tok.uvarint 0, Tok.str "ClickHouse", Tok.uvarint 19, Tok.uvarint 17,
        Tok.uvarint 54428]
      = (none, some { name := "ClickHouse", major := 19, minor := 17, revision := 54428 }, []) := by
  obtain ⟨h1, h2, h3, h4, h5⟩ := C5_hello_single_packet
  exact ⟨h3 7 [Tok.str "x"] (by decide) (by decide),
    h1 "ClickHouse" 19 17 54428 []⟩

/-- C8: evaluation of the per-step loop bodies of `Migrator.Migrate` and
`Migrator.Rollback` at a failing step.  In apply-on-success-only mode the
failure aborts without recording state, as the claim says; but in the
default mode, although the step is still marked and the loop stops, the
returned error is the (nil) MarkApplied / MarkUnapplied error rather than
the failure of the step — the guard tests `err` but returns `applyErr`, so a
failed Up / Down whose marking succeeds is reported as success. -/
theorem C8_migrate_step_swallows_failure :
    migrateStep false false true (some "up failed") none
      = { marked := true, stopped := true, err := none }
    ∧ migrateStep true false true (some "up failed") none
      = { marked := false, stopped := true, err := some "up failed" }
    ∧ rollbackStep false false true (some "down failed") none
      = { marked := true, stopped := true, err := none }
    ∧ rollbackStep true false true (some "down failed") none
      = { marked := false, stopped := true, err := some "down failed" }
    ∧ migrateStep false false true (some "up failed") (some "insert failed")
      = { marked := true, stopped := true, err := some "insert failed" } := by
  exact ⟨rfl, rfl, rfl, rfl, rfl⟩

/-- C9: `Lock` wraps any add-column DDL failure into the "already locked"
error and succeeds otherwise; `Unlock` suppresses drop-column failures
containing "Cannot find column", wraps any other failure into the
"already unlocked" error, and succeeds on success. -/
theorem C9_lock_unlock :
    (∀ (msg : String), lockResult (some msg)
        = some ("chmigrate: migrations table is already locked (" ++ msg ++ ")"))
    ∧ lockResult none = none
    ∧ unlockResult none = none
    ∧ (∀ (msg : String), strContains msg "Cannot find column" = true →
        unlockResult (some msg) = none)
    ∧ (∀ (msg : String), strContains msg "Cannot find column" = false →
        unlockResult (some msg)
          = some ("chmigrate: migrations table is already unlocked (" ++ msg ++ ")"))
    ∧ strContains ("chmigrate: migrations table is already locked ("
        ++ "code: 44 column with this name already exists" ++ ")") "already locked" = true
    ∧ strContains ("chmigrate: migrations table is already unlocked ("
        ++ "connection refused" ++ ")") "already unlocked" = true := by
  refine ⟨fun _ => rfl, rfl, rfl, ?_, ?_, by decide, by decide⟩
  · intro msg h
    simp [unlockResult, h]
  · intro msg h
    simp [unlockResult, h]

/-- C9 witness: the simulated scenario D — a "column already exists"
failure on Lock yields the "already locked" error; a "Cannot find column"
failure on Unlock is suppressed; another Unlock failure yields the
"already unlocked" error. -/
theorem C9_lock_unlock_witness :
    lockResult (some "code: 44 column with this name already exists")
      = some ("chmigrate: migrations table is already locked ("
          ++ "code: 44 column with this name already exists" ++ ")")
    ∧ unlockResult (some "code: 10 Cannot find column lock in table") = none
    ∧ unlockResult (some "connection refused")
      = some ("chmigrate: migrations table is already unlocked ("
          ++ "connection refused" ++ ")") := by
  obtain ⟨h1, h2, h3, h4, h5, h6, h7⟩ := C9_lock_unlock
  exact ⟨h1 _, h4 "code: 10 Cannot find column lock in table" (by decide),
    h5 "connection refused" (by decide)⟩

/-- A fully supported settings list serializes to the per-setting tokens
followed by the empty-string end-of-settings sentinel, with no panic. -/
theorem writeSettings_ok (settings : List (String × SettingValue))
    (h : ∀ kv ∈ settings, kv.2.supported = true) :
    writeSettings settings = (settings.flatMap settingToks ++ [WTok.wstr ""], none) := by
  induction settings with
  | nil => rfl
  | cons kv rest ih =>
    obtain ⟨k, v⟩ := kv
    have hrest := ih (fun q hq => h q (List.mem_cons_of_mem _ hq))
    cases v with
    | other t =>
      have := h (k, SettingValue.other t) (List.mem_cons_self _ _)
      simp [SettingValue.supported] at this
    | text s => simp [writeSettings, settingToks, hrest]
    | int i => simp [writeSettings, settingToks, hrest]
    | int64 i => simp [writeSettings, settingToks, hrest]
    | uint64 n => simp [writeSettings, settingToks, hrest]
    | boolean b => simp [writeSettings, settingToks, hrest]

/-- Serialization reaches the first unsupported setting having emitted
exactly the supported settings before it plus the key of that setting, then
panics; nothing after the key — neither the value, later settings nor the
sentinel — is emitted. -/
theorem writeSettings_panic (pre : List (String × SettingValue)) :
    ∀ (key t : String) (rest : List (String × SettingValue)),
      (∀ kv ∈ pre, kv.2.supported = true) →
      writeSettings (pre ++ (key, SettingValue.other t) :: rest)
        = (pre.flatMap settingToks ++ [WTok.wstr key],
           some (key ++ " setting has unsupported type: " ++ t)) := by
  induction pre with
  | nil => intro key t rest _; rfl
  | cons kv pre ih =>
    intro key t rest h
    obtain ⟨k, v⟩ := kv
    have hpre := ih key t rest (fun q hq => h q (List.mem_cons_of_mem _ hq))
    cases v with
    | other t2 =>
      have := h (k, SettingValue.other t2) (List.mem_cons_self _ _)
      simp [SettingValue.supported] at this
    | text s => simp [writeSettings, settingToks, hpre]
    | int i => simp [writeSettings, settingToks, hpre]
    | int64 i => simp [writeSettings, settingToks, hpre]
    | uint64 n => simp [writeSettings, settingToks, hpre]
    | boolean b => simp [writeSettings, settingToks, hpre]

/-- Serialization completes without panic exactly when every value is one
of the four supported kinds. -/
theorem writeSettings_none_iff (settings : List (String × SettingValue)) :
    (writeSettings settings).2 = none ↔ ∀ kv ∈ settings, kv.2.supported = true := by
  induction settings with
  | nil => simp [writeSettings]
  | cons kv rest ih =>
    obtain ⟨k, v⟩ := kv
    cases v with
    | other t => simp [writeSettings, SettingValue.supported]
    | text s => simpa [writeSettings, SettingValue.supported] using ih
    | int i => simpa [writeSettings, SettingValue.supported] using ih
    | int64 i => simpa [writeSettings, SettingValue.supported] using ih
    | uint64 n => simpa [writeSettings, SettingValue.supported] using ih
    | boolean b => simpa [writeSettings, SettingValue.supported] using ih

/-- C7 (counterexample): the claim that an unsupported value fails before
any bytes of that setting are emitted is false — the key is written before
the type switch runs, so the failing serialization has already emitted the
key token of that setting. -/
theorem C7_cex_key_emitted_before_panic :
    writeSettings [("k", SettingValue.other "chan int")]
      = ([WTok.wstr "k"], some "k setting has unsupported type: chan int")
    ∧ ([WTok.wstr "k"] : List WTok) ≠ [] := by
  exact ⟨rfl, by decide⟩

/-- C7 (amended): settings serialization accepts exactly the kinds text,
signed 64-bit integer, unsigned 64-bit integer and boolean; any other
value panics at the first offending setting, after the key of that setting but
before any bytes of its value (and before any later setting or the
sentinel); a successful serialization of the whole mapping is terminated
by the empty-string sentinel. -/
theorem C7_settings_serialization (settings : List (String × SettingValue)) :
    ((writeSettings settings).2 = none ↔ ∀ kv ∈ settings, kv.2.supported = true)
    ∧ ((∀ kv ∈ settings, kv.2.supported = true) →
        writeSettings settings = (settings.flatMap settingToks ++ [WTok.wstr ""], none))
    ∧ (∀ (pre : List (String × SettingValue)) (key t : String)
        (rest : List (String × SettingValue)),
        settings = pre ++ (key, SettingValue.other t) :: rest →
        (∀ kv ∈ pre, kv.2.supported = true) →
        writeSettings settings
          = (pre.flatMap settingToks ++ [WTok.wstr key],
             some (key ++ " setting has unsupported type: " ++ t))) := by
  refine ⟨writeSettings_none_iff settings, fun h => writeSettings_ok settings h, ?_⟩
  intro pre key t rest hs hpre
  rw [hs]
  exact writeSettings_panic pre key t rest hpre

/-- C7 witness: one supported setting followed by an unsupported one —
the supported pair and the offending key are emitted, then the panic;
and a fully supported mapping ends with the sentinel. -/
theorem C7_settings_witness :
    writeSettings [("send_logs_level", SettingValue.text "trace"),
        ("k", SettingValue.other "chan int")]
      = ([WTok.wstr "send_logs_level", WTok.wstr "trace", WTok.wstr "k"],
         some "k setting has unsupported type: chan int")
    ∧ writeSettings [("max_rows", SettingValue.uint64 100)]
      = ([WTok.wstr "max_rows", WTok.wuvarint 100, WTok.wstr ""], none) := by
  have h1 := (C7_settings_serialization [("send_logs_level", SettingValue.text "trace"),
    ("k", SettingValue.other "chan int")]).2.2
    [("send_logs_level", SettingValue.text "trace")] "k" "chan int" [] rfl (by decide)
  have h2 := (C7_settings_serialization [("max_rows", SettingValue.uint64 100)]).2.1
    (by decide)
  refine ⟨?_, ?_⟩
  · simpa [settingToks] using h1
  · simpa [settingToks] using h2

end GoCH
